import Mathlib

/-!
Shallow embedding of the CoverPics poster downloader
(`src/models/data_models.py`, `src/utils/helpers.py`,
`src/core/api_client.py`, `src/core/downloader.py`)
together with proofs of the specification's claims about it.

Modelling conventions:
* Python strings are `String`, lists are `List`, `None`-able values are
  `Option`.
* TMDB popularity / vote_average are Python floats used only for ordering;
  they are modelled as `Rat`.
* The network and the filesystem are explicit parameters: `SearchApi` maps
  a search request to the raw `results` array (or `none` for a failed
  request), and `Env` holds the set of existing files plus the outcome of
  each poster-image GET request.
-/

namespace CoverPics

/-! ## Data model (src/models/data_models.py) -/

/-- Enum for media types supported by TMDB (`MediaType`). -/
inductive MediaType where
  | tv
  | movie
deriving DecidableEq

/-- String value of a `MediaType`, as in the Python enum. -/
def MediaType.value : MediaType → String
  | .tv => "tv"
  | .movie => "movie"

/-- Enum for poster image quality (`Quality`). -/
inductive Quality where
  | original
  | high
  | medium
  | low
deriving DecidableEq

/-- String value of a `Quality`, as in the Python enum. -/
def Quality.value : Quality → String
  | .original => "original"
  | .high => "w500"
  | .medium => "w342"
  | .low => "w185"

/-- Configuration settings for the poster downloader (`DownloadConfig`).
`delay`, `zip_output` and `log_level` only affect timing / IO side
channels and are omitted. `max_retries` is a Python `int`, hence `Int`. -/
structure DownloadConfig where
  api_key : String
  output_dir : String
  language : String
  quality : Quality
  media_types : List MediaType
  max_retries : Int
  save_metadata : Bool
  overwrite_existing : Bool
  backup_languages : List String
deriving DecidableEq

/-- Information about a media item from the TMDB API (`MediaInfo`). -/
structure MediaInfo where
  id : Int
  title : String
  original_title : String
  poster_path : Option String
  overview : String
  release_date : String
  media_type : MediaType
  language : String
  popularity : Rat
  vote_average : Rat
deriving DecidableEq

/-- Result of a single download attempt (`DownloadResult`).  In Python the
dataclass defaults are `file_path=None`, `error_message=None`,
`media_info=None`, `attempts=1`; every construction site below spells all
fields out. -/
structure DownloadResult where
  title : String
  success : Bool
  file_path : Option String
  error_message : Option String
  media_info : Option MediaInfo
  attempts : Nat
deriving DecidableEq

/-- Statistics for a download session (`DownloadStats`). -/
structure DownloadStats where
  total : Nat
  successful : Nat
  failed : Nat
  skipped : Nat
  failed_titles : List String
deriving DecidableEq

/-- Python truthiness of an optional string: `None` and `""` are falsy. -/
def pyTruthy : Option String → Bool
  | none => false
  | some s => !s.isEmpty

/-! ## Filename sanitization (src/utils/helpers.py, sanitize_filename) -/

/-- ASCII whitespace characters, exactly those matched by Python's `\s`
and `str.strip()` on ASCII text. -/
def pyWs (c : Char) : Bool :=
  c = ' ' || c = '\t' || c = '\n' || c = '\r' || c = '\x0b' || c = '\x0c'

/-- The illegal filename characters replaced in step 3 of
`sanitize_filename` (the regex `[<>:"/\\|?*]`). -/
def isIllegalChar (c : Char) : Bool :=
  c = '<' || c = '>' || c = ':' || c = '"' || c = '/' || c = '\\' ||
    c = '|' || c = '?' || c = '*'

/-- The whitelist of step 5 of `sanitize_filename` (the regex class
`[a-zA-Z0-9_\-]`). -/
def isSafeChar (c : Char) : Bool :=
  (97 ≤ c.toNat && c.toNat ≤ 122) || (65 ≤ c.toNat && c.toNat ≤ 90) ||
    (48 ≤ c.toNat && c.toNat ≤ 57) || c = '_' || c = '-'

/-- ASCII code points. -/
def isAsciiChar (c : Char) : Bool := c.toNat < 128

/-- Model of `unicodedata.normalize('NFKD', s).encode('ascii',
'ignore').decode('ascii')`: on ASCII text it is the identity (ASCII has no
compatibility decompositions); non-ASCII code points are dropped.  The
transliteration NFKD performs on some non-ASCII characters is not
modelled, so theorems that depend on this step are stated for ASCII
inputs. -/
def asciiFold (l : List Char) : List Char := l.filter isAsciiChar

/-- Model of `re.sub(r'\s+', '_', s)`: each maximal run of whitespace is
replaced by a single underscore.  The flag records whether the current
run's underscore was already emitted. -/
def collapseWs : Bool → List Char → List Char
  | _, [] => []
  | true, c :: cs =>
    if pyWs c then collapseWs true cs else c :: collapseWs false cs
  | false, c :: cs =>
    if pyWs c then '_' :: collapseWs true cs else c :: collapseWs false cs

/-- Model of `re.sub(r'__+', '_', s)`: each maximal run of underscores is
replaced by a single underscore (runs of length one are unchanged, which
gives the same result). -/
def collapseU : Bool → List Char → List Char
  | _, [] => []
  | true, c :: cs =>
    if c = '_' then collapseU true cs else c :: collapseU false cs
  | false, c :: cs =>
    if c = '_' then '_' :: collapseU true cs else c :: collapseU false cs

/-- Characters removed by `str.strip('_-')`. -/
def isStripChar (c : Char) : Bool := c = '_' || c = '-'

/-- Model of `s.strip('_-')`: drop the characters of `isStripChar` from
both ends. -/
def stripUH (l : List Char) : List Char :=
  ((l.dropWhile isStripChar).reverse.dropWhile isStripChar).reverse

/-- `sanitize_filename` from src/utils/helpers.py.  The initial Python
guard `not filename.strip()` holds exactly when every character of the
input is whitespace (vacuously for the empty string). -/
def sanitize_filename (filename : String) (max_length : Nat) : String :=
  if filename.toList.all pyWs then "untitled"
  else
    let s1 := asciiFold filename.toList
    let s2 := s1.map fun c => if isIllegalChar c then '_' else c
    let s3 := collapseWs false s2
    let s4 := s3.filter isSafeChar
    let s5 := collapseU false s4
    let s6 := stripUH s5
    let s7 := s6.take max_length
    if s7.isEmpty then "untitled" else String.mk s7

/-! ## API client (src/core/api_client.py) -/

/-- One entry of the raw `results` array of a TMDB search response.  All
fields the parser reads are optional, mirroring the `.get` accesses; a
response field holding a value of the wrong runtime type (which the
Python parser would skip via `TypeError`/`ValueError`) is not
representable in the typed model. -/
structure RawItem where
  id : Option Int
  name : Option String
  title : Option String
  original_name : Option String
  original_title : Option String
  poster_path : Option String
  overview : Option String
  first_air_date : Option String
  release_date : Option String
  popularity : Option Rat
  vote_average : Option Rat
deriving DecidableEq

/-- Abstract TMDB search endpoint: for a (title, media type, language)
request, `none` models a failed request or a response without a
`results` key, and `some items` models the raw `results` array. -/
abbrev SearchApi := String → MediaType → String → Option (List RawItem)

/-- Parsing of one raw result item inside `search_media`: an item without
an `id` is skipped, every other field falls back to the defaults of the
Python code. -/
def parseItem (mt : MediaType) (lang : String) (item : RawItem) : Option MediaInfo :=
  match item.id with
  | none => none
  | some i =>
    let titleV := match mt with | .tv => item.name | .movie => item.title
    let origV := match mt with | .tv => item.original_name | .movie => item.original_title
    let dateV := match mt with | .tv => item.first_air_date | .movie => item.release_date
    some
      { id := i
        title := titleV.getD "Title not available"
        original_title := origV.getD "N/A"
        poster_path := item.poster_path
        overview := item.overview.getD ""
        release_date := dateV.getD ""
        media_type := mt
        language := lang
        popularity := item.popularity.getD 0
        vote_average := item.vote_average.getD 0 }

/-- Stable insertion used to model Python's stable
`sorted(key=popularity, reverse=True)`: `x` moves past `y` only when its
popularity is strictly smaller, so earlier elements of equal popularity
stay first. -/
def insertByPop (x : MediaInfo) : List MediaInfo → List MediaInfo
  | [] => [x]
  | y :: ys =>
    if x.popularity < y.popularity then y :: insertByPop x ys
    else x :: y :: ys

/-- Model of `sorted(parsed_results, key=lambda x: x.popularity,
reverse=True)`. -/
def sortByPopDesc : List MediaInfo → List MediaInfo
  | [] => []
  | x :: xs => insertByPop x (sortByPopDesc xs)

/-- `TMDBApiClient.search_media`: a failed request or an absent/empty
`results` array yields `[]`; otherwise the parsed results are sorted by
popularity in descending order. -/
def search_media (api : SearchApi) (title : String) (mt : MediaType)
    (lang : String) : List MediaInfo :=
  match api title mt lang with
  | none => []
  | some items =>
    if items.isEmpty then []
    else sortByPopDesc (items.filterMap (parseItem mt lang))

/-- Image base URL of the API client. -/
def IMG_BASE_URL : String := "https://image.tmdb.org/t/p"

/-- `TMDBApiClient.get_poster_url`. -/
def get_poster_url (cfg : DownloadConfig) (poster_path : Option String) :
    Option String :=
  if pyTruthy poster_path then
    some (IMG_BASE_URL ++ "/" ++ cfg.quality.value ++ poster_path.getD "")
  else none

/-! ## Downloader (src/core/downloader.py) -/

/-- `UniversalPosterDownloader._find_best_match`, inner loop over the
configured media types for one language: the head of the first non-empty
result list is returned. -/
def firstTypeHit (api : SearchApi) (title lang : String) :
    List MediaType → Option MediaInfo
  | [] => none
  | mt :: rest =>
    match search_media api title mt lang with
    | [] => firstTypeHit api title lang rest
    | r :: _ => some r

/-- `UniversalPosterDownloader._find_best_match`, outer loop over the
backup languages. -/
def firstBackupHit (api : SearchApi) (cfg : DownloadConfig) (title : String) :
    List String → Option MediaInfo
  | [] => none
  | lang :: rest =>
    match firstTypeHit api title lang cfg.media_types with
    | some r => some r
    | none => firstBackupHit api cfg title rest

/-- `UniversalPosterDownloader._find_best_match`: primary language first
across all media types, then every backup language across all media
types; `none` when nothing is found. -/
def find_best_match (api : SearchApi) (cfg : DownloadConfig) (title : String) :
    Option MediaInfo :=
  match firstTypeHit api title cfg.language cfg.media_types with
  | some r => some r
  | none => firstBackupHit api cfg title cfg.backup_languages

/-- The filesystem and the poster-image network: `files` is the set of
existing file paths and `net url n` is the outcome of the `n`-th GET of
`url` (`none` = success, `some msg` = a `requests.RequestException` with
message `msg`). -/
structure Env where
  files : List String
  net : String → Nat → Option String

/-- Observable outcome of one `download_single_poster` call: the returned
`DownloadResult`, the updated statistics and filesystem, and the number
of poster-image HTTP GET attempts that were made. -/
structure StepResult where
  result : DownloadResult
  stats : DownloadStats
  env : Env
  gets : Nat

/-- The statistics update of every failure branch:
`self.stats.failed += 1` and `self.stats.failed_titles.append(title)`. -/
def failStats (stats : DownloadStats) (title : String) : DownloadStats :=
  { stats with
      failed := stats.failed + 1
      failed_titles := stats.failed_titles ++ [title] }

/-- Output file path of a title:
`self.output_path / f"{sanitize_filename(title)}.jpg"`. -/
def posterPath (cfg : DownloadConfig) (title : String) : String :=
  cfg.output_dir ++ "/" ++ sanitize_filename title 200 ++ ".jpg"

/-- The retry loop `for attempt in range(1, max_retries + 1)` of
`download_single_poster`.  The first list argument is the remaining
attempt numbers, the second accumulates the number of GETs performed.
Success writes the file and bumps `successful`; a `RequestException` on
the last attempt records the failure; the fall-through return after the
loop carries the Python dataclass default `attempts=1`.  (The metadata
sidecar written on success is an IO side channel and is not modelled.) -/
def downloadLoop (env : Env) (cfg : DownloadConfig) (title path url : String)
    (mi : MediaInfo) (stats : DownloadStats) :
    List Nat → Nat → StepResult
  | [], gets =>
    { result := ⟨title, false, none, some "Download failed after all retries.", none, 1⟩
      stats := stats
      env := env
      gets := gets }
  | attempt :: rest, gets =>
    match env.net url attempt with
    | none =>
      { result := ⟨title, true, some path, none, some mi, attempt⟩
        stats := { stats with successful := stats.successful + 1 }
        env := { env with files := path :: env.files }
        gets := gets + 1 }
    | some msg =>
      if (attempt : Int) < cfg.max_retries then
        downloadLoop env cfg title path url mi stats rest (gets + 1)
      else
        { result := ⟨title, false, none, some msg, none, attempt⟩
          stats := failStats stats title
          env := env
          gets := gets + 1 }

/-- `UniversalPosterDownloader.download_single_poster`.  The Python guard
`if not media_info or not media_info.poster_path` is split into its two
disjuncts, both returning the same failure. -/
def download_single_poster (env : Env) (api : SearchApi) (cfg : DownloadConfig)
    (stats : DownloadStats) (title : String) : StepResult :=
  if !cfg.overwrite_existing && env.files.contains (posterPath cfg title) then
    { result := ⟨title, true, some (posterPath cfg title), none, none, 1⟩
      stats := { stats with skipped := stats.skipped + 1 }
      env := env
      gets := 0 }
  else
    match find_best_match api cfg title with
    | none =>
      { result := ⟨title, false, none, some "No suitable match or poster found on TMDB.", none, 1⟩
        stats := failStats stats title
        env := env
        gets := 0 }
    | some mi =>
      if !pyTruthy mi.poster_path then
        { result := ⟨title, false, none, some "No suitable match or poster found on TMDB.", none, 1⟩
          stats := failStats stats title
          env := env
          gets := 0 }
      else
        match get_poster_url cfg mi.poster_path with
        | none =>
          { result := ⟨title, false, none, some "Could not construct a valid poster URL.", none, 1⟩
            stats := failStats stats title
            env := env
            gets := 0 }
        | some url =>
          downloadLoop env cfg title (posterPath cfg title) url mi stats
            (List.range' 1 cfg.max_retries.toNat) 0

/-- The per-title fold of `download_from_list`, threading the statistics
and the filesystem. -/
def runTitles (api : SearchApi) (cfg : DownloadConfig) :
    Env → DownloadStats → List String → DownloadStats × Env
  | env, stats, [] => (stats, env)
  | env, stats, t :: ts =>
    let step := download_single_poster env api cfg stats t
    runTitles api cfg step.env step.stats ts

/-- `UniversalPosterDownloader.download_from_list`: the statistics are
reset to `DownloadStats(total=len(titles))` and every title is processed
in order.  (The summary printout, failed-titles report and zip archive
are IO side channels and are not modelled.) -/
def download_from_list (env : Env) (api : SearchApi) (cfg : DownloadConfig)
    (titles : List String) : DownloadStats × Env :=
  runTitles api cfg env ⟨titles.length, 0, 0, 0, []⟩ titles

/-! ## Spec-side definitions for the match-resolution claim -/

/-- Modelled from the spec: the search order of section 4.1 — the primary
language crossed with each configured media type in order, then each
backup language crossed with each media type in the same order. -/
def specSearchOrder (cfg : DownloadConfig) : List (String × MediaType) :=
  cfg.media_types.map (fun mt => (cfg.language, mt)) ++
    cfg.backup_languages.flatMap fun l => cfg.media_types.map fun mt => (l, mt)

/-- Modelled from the spec: return the first entry of the first non-empty
result list. -/
def firstHit : List (List MediaInfo) → Option MediaInfo
  | [] => none
  | [] :: rest => firstHit rest
  | (r :: _) :: _ => some r

/-- The composed character pipeline of `sanitize_filename` before
truncation, used to phrase lemmas about it. -/
def sanitizeCore (l : List Char) : List Char :=
  stripUH (collapseU false
    ((collapseWs false
      ((asciiFold l).map fun c => if isIllegalChar c then '_' else c)).filter
        isSafeChar))

/-- Two adjacent characters are not both underscores; the output of the
underscore-collapsing step satisfies this at every position. -/
def noAdjPair (a b : Char) : Prop := ¬(a = '_' ∧ b = '_')

/-! ## Concrete inputs used by the witnesses -/

/-- An API for which every search yields an empty `results` array. -/
def emptyApi : SearchApi := fun _ _ _ => some []

/-- A configuration with the default settings of `DownloadConfig`. -/
def cfg0 : DownloadConfig :=
  ⟨"key", "output/posters", "en-US", Quality.original,
    [MediaType.tv, MediaType.movie], 3, true, false, ["en", "ja", "es"]⟩

/-- An empty filesystem whose poster GETs always succeed. -/
def env0 : Env := ⟨[], fun _ _ => none⟩

/-- Fresh statistics. -/
def stats0 : DownloadStats := ⟨0, 0, 0, 0, []⟩

/-- A filesystem already holding the poster for the title `"Arcane"`. -/
def envW : Env := ⟨["output/posters/Arcane.jpg"], fun _ _ => none⟩

/-- A filesystem on which every poster GET raises a network error. -/
def envFail : Env := ⟨[], fun _ _ => some "boom"⟩

/-- The default configuration with `max_retries` set to 0. -/
def cfgZ : DownloadConfig :=
  ⟨"key", "output/posters", "en-US", Quality.original,
    [MediaType.tv, MediaType.movie], 0, true, false, ["en", "ja", "es"]⟩

/-- One raw TMDB search result with a poster and popularity 5. -/
def item1 : RawItem :=
  ⟨some 42, some "Arcane", none, some "Arcane", none, some "/p.jpg",
    some "", some "2021", none, some 5, some 8⟩

/-- A second raw result without an id (skipped by the parser) and a third
with popularity 9, to exercise the popularity sort. -/
def item2 : RawItem :=
  ⟨none, some "Arcane 2", none, none, none, none, none, none, none, some 7, none⟩

def item3 : RawItem :=
  ⟨some 43, some "Arcane 3", none, some "Arcane 3", none, some "/q.jpg",
    some "", some "2023", none, some 9, some 6⟩

/-- An API answering every search with the three items above. -/
def api1 : SearchApi := fun _ _ _ => some [item1, item2, item3]

/-- The parsed `MediaInfo` of `item3` for a TV search in `en-US`; it has
the highest popularity, so it is the best match `api1` can produce. -/
def mi3 : MediaInfo :=
  ⟨43, "Arcane 3", "Arcane 3", some "/q.jpg", "", "2023", MediaType.tv, "en-US", 9, 6⟩

/-! ## Lemmas about the sanitizer -/

lemma sanitize_filename_def (s : String) (n : Nat) :
    sanitize_filename s n =
      if s.toList.all pyWs then "untitled"
      else
        if ((sanitizeCore s.toList).take n).isEmpty then "untitled"
        else String.mk ((sanitizeCore s.toList).take n) := rfl

/-- A whitelisted character is not whitespace. -/
lemma isSafeChar_not_ws {c : Char} (h : isSafeChar c = true) : pyWs c = false := by
  cases hw : pyWs c with
  | false => rfl
  | true =>
    exfalso
    simp only [pyWs, Bool.or_eq_true, decide_eq_true_eq] at hw
    rcases hw with ((((rfl | rfl) | rfl) | rfl) | rfl) | rfl <;> exact absurd h (by decide)

/-- A whitelisted character is not an illegal filename character. -/
lemma isSafeChar_not_illegal {c : Char} (h : isSafeChar c = true) :
    isIllegalChar c = false := by
  cases hw : isIllegalChar c with
  | false => rfl
  | true =>
    exfalso
    simp only [isIllegalChar, Bool.or_eq_true, decide_eq_true_eq] at hw
    rcases hw with ((((((((rfl | rfl) | rfl) | rfl) | rfl) | rfl) | rfl) | rfl) | rfl) <;>
      exact absurd h (by decide)

/-- A whitelisted character is ASCII. -/
lemma isSafeChar_ascii {c : Char} (h : isSafeChar c = true) :
    isAsciiChar c = true := by
  simp only [isSafeChar, Bool.or_eq_true, Bool.and_eq_true, decide_eq_true_eq] at h
  simp only [isAsciiChar, decide_eq_true_eq]
  rcases h with (((⟨h1, h2⟩ | ⟨h1, h2⟩) | ⟨h1, h2⟩) | rfl) | rfl
  · omega
  · omega
  · omega
  · decide
  · decide

/-- Characters of the whitespace-collapsing step come from the input or
are underscores. -/
lemma mem_collapseWs {c : Char} :
    ∀ (b : Bool) (l : List Char), c ∈ collapseWs b l → c ∈ l ∨ c = '_' := by
  intro b l
  induction l generalizing b with
  | nil => intro h; cases b <;> simp [collapseWs] at h
  | cons d ds ih =>
    intro h
    cases b with
    | true =>
      by_cases hd : pyWs d = true
      · rw [collapseWs, if_pos hd] at h
        rcases ih true h with h' | h'
        · exact Or.inl (List.mem_cons_of_mem _ h')
        · exact Or.inr h'
      · rw [collapseWs, if_neg hd] at h
        rcases List.mem_cons.mp h with rfl | h'
        · exact Or.inl (List.mem_cons_self _ _)
        · rcases ih false h' with h'' | h''
          · exact Or.inl (List.mem_cons_of_mem _ h'')
          · exact Or.inr h''
    | false =>
      by_cases hd : pyWs d = true
      · rw [collapseWs, if_pos hd] at h
        rcases List.mem_cons.mp h with rfl | h'
        · exact Or.inr rfl
        · rcases ih true h' with h'' | h''
          · exact Or.inl (List.mem_cons_of_mem _ h'')
          · exact Or.inr h''
      · rw [collapseWs, if_neg hd] at h
        rcases List.mem_cons.mp h with rfl | h'
        · exact Or.inl (List.mem_cons_self _ _)
        · rcases ih false h' with h'' | h''
          · exact Or.inl (List.mem_cons_of_mem _ h'')
          · exact Or.inr h''

/-- The underscore-collapsing step only drops characters. -/
lemma mem_collapseU {c : Char} :
    ∀ (b : Bool) (l : List Char), c ∈ collapseU b l → c ∈ l := by
  intro b l
  induction l generalizing b with
  | nil => intro h; cases b <;> simp [collapseU] at h
  | cons d ds ih =>
    intro h
    cases b with
    | true =>
      by_cases hd : d = '_'
      · rw [collapseU, if_pos hd] at h
        exact List.mem_cons_of_mem _ (ih true h)
      · rw [collapseU, if_neg hd] at h
        rcases List.mem_cons.mp h with rfl | h'
        · exact List.mem_cons_self _ _
        · exact List.mem_cons_of_mem _ (ih false h')
    | false =>
      by_cases hd : d = '_'
      · rw [collapseU, if_pos hd] at h
        rcases List.mem_cons.mp h with rfl | h'
        · rw [hd]; exact List.mem_cons_self _ _
        · exact List.mem_cons_of_mem _ (ih true h')
      · rw [collapseU, if_neg hd] at h
        rcases List.mem_cons.mp h with rfl | h'
        · exact List.mem_cons_self _ _
        · exact List.mem_cons_of_mem _ (ih false h')

/-- Characters survive `stripUH` only if they were in the input. -/
lemma mem_stripUH {c : Char} {l : List Char} (h : c ∈ stripUH l) : c ∈ l := by
  unfold stripUH at h
  rw [List.mem_reverse] at h
  have h2 := (List.dropWhile_suffix _).subset h
  rw [List.mem_reverse] at h2
  exact (List.dropWhile_suffix _).subset h2

/-- Every character of the sanitizer pipeline output is whitelisted. -/
lemma safe_sanitizeCore {l : List Char} : ∀ c ∈ sanitizeCore l, isSafeChar c = true := by
  intro c hc
  unfold sanitizeCore at hc
  have h1 := mem_stripUH hc
  have h2 := mem_collapseU false _ h1
  exact (List.mem_filter.mp h2).2

lemma length_collapseWs_le : ∀ (b : Bool) (l : List Char),
    (collapseWs b l).length ≤ l.length := by
  intro b l
  induction l generalizing b with
  | nil => cases b <;> simp [collapseWs]
  | cons d ds ih =>
    cases b with
    | true =>
      by_cases hd : pyWs d = true
      · rw [collapseWs, if_pos hd]
        exact Nat.le_succ_of_le (ih true)
      · rw [collapseWs, if_neg hd]
        simpa using Nat.succ_le_succ (ih false)
    | false =>
      by_cases hd : pyWs d = true
      · rw [collapseWs, if_pos hd]
        simpa using Nat.succ_le_succ (ih true)
      · rw [collapseWs, if_neg hd]
        simpa using Nat.succ_le_succ (ih false)

lemma length_collapseU_le : ∀ (b : Bool) (l : List Char),
    (collapseU b l).length ≤ l.length := by
  intro b l
  induction l generalizing b with
  | nil => cases b <;> simp [collapseU]
  | cons d ds ih =>
    cases b with
    | true =>
      by_cases hd : d = '_'
      · rw [collapseU, if_pos hd]
        exact Nat.le_succ_of_le (ih true)
      · rw [collapseU, if_neg hd]
        simpa using Nat.succ_le_succ (ih false)
    | false =>
      by_cases hd : d = '_'
      · rw [collapseU, if_pos hd]
        simpa using Nat.succ_le_succ (ih true)
      · rw [collapseU, if_neg hd]
        simpa using Nat.succ_le_succ (ih false)

lemma length_dropWhile_le (p : Char → Bool) (l : List Char) :
    (l.dropWhile p).length ≤ l.length :=
  (List.dropWhile_suffix p).sublist.length_le

lemma length_stripUH_le (l : List Char) : (stripUH l).length ≤ l.length := by
  unfold stripUH
  rw [List.length_reverse]
  calc ((l.dropWhile isStripChar).reverse.dropWhile isStripChar).length
      ≤ (l.dropWhile isStripChar).reverse.length := length_dropWhile_le _ _
    _ = (l.dropWhile isStripChar).length := List.length_reverse _
    _ ≤ l.length := length_dropWhile_le _ _

lemma length_sanitizeCore_le (l : List Char) : (sanitizeCore l).length ≤ l.length := by
  unfold sanitizeCore
  calc (stripUH _).length
      ≤ (collapseU false _).length := length_stripUH_le _
    _ ≤ ((collapseWs false _).filter isSafeChar).length := length_collapseU_le _ _
    _ ≤ (collapseWs false _).length := List.length_filter_le _ _
    _ ≤ ((asciiFold l).map _).length := length_collapseWs_le _ _
    _ = (asciiFold l).length := List.length_map _ _
    _ ≤ l.length := List.length_filter_le _ _

lemma collapseWs_eq_self {l : List Char} (h : ∀ c ∈ l, pyWs c = false) :
    collapseWs false l = l := by
  induction l with
  | nil => rfl
  | cons d ds ih =>
    have hd : pyWs d = false := h d (List.mem_cons_self _ _)
    rw [collapseWs, if_neg (by simp [hd])]
    rw [ih fun c hc => h c (List.mem_cons_of_mem _ hc)]

lemma map_illegal_eq_self {l : List Char} (h : ∀ c ∈ l, isIllegalChar c = false) :
    (l.map fun c => if isIllegalChar c then '_' else c) = l := by
  induction l with
  | nil => rfl
  | cons d ds ih =>
    have hd : isIllegalChar d = false := h d (List.mem_cons_self _ _)
    simp only [List.map_cons, if_neg (by simp [hd] : ¬isIllegalChar d = true)]
    rw [ih fun c hc => h c (List.mem_cons_of_mem _ hc)]

/-- After an underscore was just emitted, the collapsing step never
emits another one first. -/
lemma collapseU_head_ne {l : List Char} :
    ∀ c, (collapseU true l).head? = some c → c ≠ '_' := by
  induction l with
  | nil => intro c h; simp [collapseU] at h
  | cons d ds ih =>
    intro c h
    by_cases hd : d = '_'
    · rw [collapseU, if_pos hd] at h
      exact ih c h
    · rw [collapseU, if_neg hd, List.head?_cons] at h
      exact (Option.some.inj h) ▸ hd

/-- The output of the underscore-collapsing step has no two adjacent
underscores. -/
lemma chain'_collapseU : ∀ (b : Bool) (l : List Char),
    List.Chain' noAdjPair (collapseU b l) := by
  intro b l
  induction l generalizing b with
  | nil => cases b <;> exact List.chain'_nil
  | cons d ds ih =>
    by_cases hd : d = '_'
    · cases b with
      | true => rw [collapseU, if_pos hd]; exact ih true
      | false =>
        rw [collapseU, if_pos hd]
        refine List.chain'_cons'.mpr ⟨?_, ih true⟩
        intro y hy hcontra
        exact collapseU_head_ne y hy hcontra.2
    · cases b with
      | true =>
        rw [collapseU, if_neg hd]
        exact List.chain'_cons'.mpr ⟨fun y _ hcontra => hd hcontra.1, ih false⟩
      | false =>
        rw [collapseU, if_neg hd]
        exact List.chain'_cons'.mpr ⟨fun y _ hcontra => hd hcontra.1, ih false⟩

/-- On a list with no two adjacent underscores, the underscore-collapsing
step is the identity. -/
lemma collapseU_eq_self {l : List Char} (h : List.Chain' noAdjPair l) :
    collapseU false l = l := by
  induction l with
  | nil => rfl
  | cons d ds ih =>
    have h' := List.chain'_cons'.mp h
    by_cases hd : d = '_'
    · rw [collapseU, if_pos hd]
      have hds : collapseU true ds = collapseU false ds := by
        cases ds with
        | nil => rfl
        | cons e es =>
          have he : e ≠ '_' := by
            intro he'
            exact h'.1 e List.head?_cons ⟨hd, he'⟩
          rw [collapseU, collapseU, if_neg he, if_neg he]
      rw [hd, hds, ih h'.2]
    · rw [collapseU, if_neg hd, ih h'.2]

lemma head?_dropWhile_not {p : Char → Bool} :
    ∀ {l : List Char} {c : Char}, (l.dropWhile p).head? = some c → p c = false := by
  intro l
  induction l with
  | nil => intro c h; simp at h
  | cons d ds ih =>
    intro c h
    cases hpd : p d with
    | true =>
      rw [List.dropWhile_cons, if_pos hpd] at h
      exact ih h
    | false =>
      rw [List.dropWhile_cons, if_neg (by simp [hpd]), List.head?_cons] at h
      exact (Option.some.inj h) ▸ hpd

lemma dropWhile_eq_self_of_head {p : Char → Bool} {l : List Char}
    (h : ∀ c, l.head? = some c → p c = false) : l.dropWhile p = l := by
  cases l with
  | nil => rfl
  | cons d ds =>
    have hd : p d = false := h d List.head?_cons
    rw [List.dropWhile_cons, if_neg (by simp [hd])]

lemma getLast?_dropWhile {p : Char → Bool} :
    ∀ {l : List Char}, l.dropWhile p ≠ [] →
      (l.dropWhile p).getLast? = l.getLast? := by
  intro l
  induction l with
  | nil => intro h; simp at h
  | cons d ds ih =>
    intro h
    cases hpd : p d with
    | false => rw [List.dropWhile_cons, if_neg (by simp [hpd])]
    | true =>
      rw [List.dropWhile_cons, if_pos hpd] at h ⊢
      rw [ih h]
      have hds : ds ≠ [] := by
        intro he
        rw [he] at h
        exact h List.dropWhile_nil
      cases ds with
      | nil => exact absurd rfl hds
      | cons e es => rw [List.getLast?_cons_cons]

lemma stripUH_eq_self {l : List Char}
    (h1 : ∀ c, l.head? = some c → isStripChar c = false)
    (h2 : ∀ c, l.getLast? = some c → isStripChar c = false) : stripUH l = l := by
  unfold stripUH
  rw [dropWhile_eq_self_of_head h1]
  rw [dropWhile_eq_self_of_head fun c hc => h2 c (by rwa [List.head?_reverse] at hc)]
  exact List.reverse_reverse l

lemma stripUH_head {l : List Char} :
    ∀ c, (stripUH l).head? = some c → isStripChar c = false := by
  intro c h
  unfold stripUH at h
  rw [List.head?_reverse] at h
  have hne : ((l.dropWhile isStripChar).reverse.dropWhile isStripChar) ≠ [] := by
    intro he
    rw [he] at h
    simp at h
  rw [getLast?_dropWhile hne, List.getLast?_reverse] at h
  exact head?_dropWhile_not h

lemma stripUH_last {l : List Char} :
    ∀ c, (stripUH l).getLast? = some c → isStripChar c = false := by
  intro c h
  unfold stripUH at h
  rw [List.getLast?_reverse] at h
  exact head?_dropWhile_not h

lemma chain'_reverse_noAdj {l : List Char} (h : List.Chain' noAdjPair l) :
    List.Chain' noAdjPair l.reverse := by
  rw [List.chain'_reverse]
  exact List.Chain'.imp (fun a b hab hc => hab ⟨hc.2, hc.1⟩) h

lemma chain'_stripUH {l : List Char} (h : List.Chain' noAdjPair l) :
    List.Chain' noAdjPair (stripUH l) := by
  unfold stripUH
  apply chain'_reverse_noAdj
  exact (chain'_reverse_noAdj (h.suffix (List.dropWhile_suffix _))).suffix
    (List.dropWhile_suffix _)

/-- A list whose characters are whitelisted, which has no two adjacent
underscores, whose first and last characters are not `_` or `-`, and
whose length is at most 200, is a fixed point of the sanitizer. -/
lemma sanitize_fixpoint {l : List Char} (hne : ¬l.isEmpty = true)
    (hsafe : ∀ c ∈ l, isSafeChar c = true)
    (hchain : List.Chain' noAdjPair l)
    (hhead : ∀ c, l.head? = some c → isStripChar c = false)
    (hlast : ∀ c, l.getLast? = some c → isStripChar c = false)
    (hlen : l.length ≤ 200) :
    sanitize_filename (String.mk l) 200 = String.mk l := by
  have htl : (String.mk l).toList = l := rfl
  rw [sanitize_filename_def, htl]
  have hws : ¬(l.all pyWs = true) := by
    intro hws
    cases l with
    | nil => exact hne rfl
    | cons d ds =>
      have hd : pyWs d = true := by
        rw [List.all_cons, Bool.and_eq_true] at hws
        exact hws.1
      rw [isSafeChar_not_ws (hsafe d (List.mem_cons_self _ _))] at hd
      cases hd
  have hcore : sanitizeCore l = l := by
    unfold sanitizeCore
    rw [show asciiFold l = l from
      List.filter_eq_self.mpr fun c hc => isSafeChar_ascii (hsafe c hc)]
    rw [map_illegal_eq_self fun c hc => isSafeChar_not_illegal (hsafe c hc)]
    rw [collapseWs_eq_self fun c hc => isSafeChar_not_ws (hsafe c hc)]
    rw [List.filter_eq_self.mpr hsafe]
    rw [collapseU_eq_self hchain]
    exact stripUH_eq_self hhead hlast
  rw [if_neg hws, hcore, List.take_of_length_le hlen, if_neg hne]

/-- C8: for every input string, with the default `max_length` of 200,
`sanitize_filename` returns a non-empty string of length at most 200
whose characters are all ASCII letters, digits, underscores or
hyphens. -/
theorem sanitize_filename_safe (s : String) :
    (sanitize_filename s 200).length ≤ 200 ∧
      sanitize_filename s 200 ≠ "" ∧
      ∀ c ∈ (sanitize_filename s 200).toList, isSafeChar c = true := by
  rw [sanitize_filename_def]
  by_cases hall : s.toList.all pyWs = true
  · rw [if_pos hall]
    exact ⟨by decide, by decide, by decide⟩
  · rw [if_neg hall]
    by_cases h7 : ((sanitizeCore s.toList).take 200).isEmpty = true
    · rw [if_pos h7]
      exact ⟨by decide, by decide, by decide⟩
    · rw [if_neg h7]
      refine ⟨List.length_take_le _ _, ?_, ?_⟩
      · intro he
        have hl : (sanitizeCore s.toList).take 200 = [] := congrArg String.toList he
        exact h7 (by rw [hl]; rfl)
      · intro c hc
        exact safe_sanitizeCore c (List.take_subset _ _ hc)

/-- Witness for C8 at the concrete input `"The Matrix?"`. -/
theorem sanitize_filename_safe_witness :
    (sanitize_filename "The Matrix?" 200).length ≤ 200 ∧
      sanitize_filename "The Matrix?" 200 ≠ "" ∧
      isSafeChar 'T' = true :=
  ⟨(sanitize_filename_safe "The Matrix?").1,
    (sanitize_filename_safe "The Matrix?").2.1,
    (sanitize_filename_safe "The Matrix?").2.2 'T' (by decide)⟩

set_option maxRecDepth 40000 in
/-- C7 counterexample: on the 201-character ASCII input
`'a' * 199 ++ "_b"` the sanitizer truncates to a string ending in an
underscore, which a second application strips; `sanitize_filename` with
the default `max_length` of 200 is therefore not idempotent on all
strings. -/
theorem sanitize_filename_not_idem :
    ¬(sanitize_filename
        (sanitize_filename (String.mk (List.replicate 199 'a' ++ ['_', 'b'])) 200) 200 =
      sanitize_filename (String.mk (List.replicate 199 'a' ++ ['_', 'b'])) 200) := by
  decide

/-- C7 (amended): `sanitize_filename` with the default `max_length` of
200 is idempotent on every ASCII string of length at most 200.  (For
longer inputs the final truncation can leave a trailing underscore or
hyphen which a second application strips, and for non-ASCII inputs the
NFKD transliteration can lengthen the string so that the same truncation
effect occurs below 200 characters.) -/
theorem sanitize_filename_idem (s : String)
    (hascii : ∀ c ∈ s.toList, isAsciiChar c = true)
    (hlen : s.length ≤ 200) :
    sanitize_filename (sanitize_filename s 200) 200 = sanitize_filename s 200 := by
  rw [sanitize_filename_def s 200]
  by_cases hall : s.toList.all pyWs = true
  · rw [if_pos hall]; decide
  · rw [if_neg hall]
    by_cases h7 : ((sanitizeCore s.toList).take 200).isEmpty = true
    · rw [if_pos h7]; decide
    · rw [if_neg h7]
      have hlen0 : s.toList.length ≤ 200 := hlen
      have hlenc : (sanitizeCore s.toList).length ≤ 200 :=
        le_trans (length_sanitizeCore_le _) hlen0
      have htake : (sanitizeCore s.toList).take 200 = sanitizeCore s.toList :=
        List.take_of_length_le hlenc
      rw [htake] at h7 ⊢
      refine sanitize_fixpoint h7 (fun c hc => safe_sanitizeCore c hc) ?_ ?_ ?_ hlenc
      · exact chain'_stripUH (chain'_collapseU false _)
      · exact fun c hc => stripUH_head c hc
      · exact fun c hc => stripUH_last c hc

/-- Witness for C7 (amended) at the concrete input
`"Breaking Bad: S1"`. -/
theorem sanitize_filename_idem_witness :
    (∀ c ∈ ("Breaking Bad: S1" : String).toList, isAsciiChar c = true) ∧
      ("Breaking Bad: S1" : String).length ≤ 200 ∧
      sanitize_filename (sanitize_filename "Breaking Bad: S1" 200) 200 =
        sanitize_filename "Breaking Bad: S1" 200 :=
  ⟨by decide, by decide,
    sanitize_filename_idem "Breaking Bad: S1" (by decide) (by decide)⟩

/-! ## Lemmas about the downloader -/

/-- The skip guard of `download_single_poster` is false when overwriting
is enabled or the output file does not exist. -/
lemma skip_guard_false {cfg : DownloadConfig} {env : Env} {title : String}
    (hskip : cfg.overwrite_existing = true ∨
      env.files.contains (posterPath cfg title) = false) :
    (!cfg.overwrite_existing && env.files.contains (posterPath cfg title)) = false := by
  rcases hskip with h | h
  · rw [h]
    rfl
  · rw [h, Bool.and_false]

/-- C4: a title whose sanitized output file already exists while
overwriting is disabled is skipped: no download attempt is made, only the
`skipped` counter changes, the returned result is successful and points
at the existing file, and the outcome does not depend on the search API
at all (no search is performed). -/
theorem download_skips_existing (env : Env) (api : SearchApi) (cfg : DownloadConfig)
    (stats : DownloadStats) (title : String)
    (hov : cfg.overwrite_existing = false)
    (hex : env.files.contains (posterPath cfg title) = true) :
    (download_single_poster env api cfg stats title).result
        = ⟨title, true, some (posterPath cfg title), none, none, 1⟩ ∧
      (download_single_poster env api cfg stats title).stats.skipped = stats.skipped + 1 ∧
      (download_single_poster env api cfg stats title).stats.total = stats.total ∧
      (download_single_poster env api cfg stats title).stats.successful = stats.successful ∧
      (download_single_poster env api cfg stats title).stats.failed = stats.failed ∧
      (download_single_poster env api cfg stats title).stats.failed_titles = stats.failed_titles ∧
      (download_single_poster env api cfg stats title).gets = 0 ∧
      (download_single_poster env api cfg stats title).env = env ∧
      ∀ api2 : SearchApi, download_single_poster env api2 cfg stats title
          = download_single_poster env api cfg stats title := by
  have hguard : (!cfg.overwrite_existing && env.files.contains (posterPath cfg title)) = true := by
    rw [hov, hex]
    rfl
  unfold download_single_poster
  rw [if_pos hguard]
  exact ⟨rfl, rfl, rfl, rfl, rfl, rfl, rfl, rfl, fun api2 => by rw [if_pos hguard]⟩

/-- Witness for C4: the poster for `"Arcane"` already exists in `envW`. -/
theorem download_skips_existing_witness :
    (download_single_poster envW emptyApi cfg0 stats0 "Arcane").result
        = ⟨"Arcane", true, some (posterPath cfg0 "Arcane"), none, none, 1⟩ ∧
      (download_single_poster envW emptyApi cfg0 stats0 "Arcane").gets = 0 :=
  ⟨(download_skips_existing envW emptyApi cfg0 stats0 "Arcane" rfl (by decide)).1,
   (download_skips_existing envW emptyApi cfg0 stats0 "Arcane" rfl (by decide)).2.2.2.2.2.2.1⟩

/-- The retry loop performs at most one GET per remaining attempt
number. -/
lemma downloadLoop_gets_le (env : Env) (cfg : DownloadConfig) (title path url : String)
    (mi : MediaInfo) (stats : DownloadStats) :
    ∀ (l : List Nat) (gets : Nat),
      (downloadLoop env cfg title path url mi stats l gets).gets ≤ gets + l.length := by
  intro l
  induction l with
  | nil => intro gets; simp [downloadLoop]
  | cons a rest ih =>
    intro gets
    cases hnet : env.net url a with
    | none =>
      simp only [downloadLoop, hnet, List.length_cons]
      omega
    | some msg =>
      simp only [downloadLoop, hnet, List.length_cons]
      by_cases hlt : (a : Int) < cfg.max_retries
      · rw [if_pos hlt]
        have h2 := ih (gets + 1)
        omega
      · rw [if_neg hlt]
        show gets + 1 ≤ gets + (rest.length + 1)
        omega

/-- The `attempts` field reported by the retry loop is either the Python
dataclass default 1 (fall-through) or one of the attempt numbers of the
loop. -/
lemma downloadLoop_attempts_cases (env : Env) (cfg : DownloadConfig)
    (title path url : String) (mi : MediaInfo) (stats : DownloadStats) :
    ∀ (l : List Nat) (gets : Nat),
      (downloadLoop env cfg title path url mi stats l gets).result.attempts = 1 ∨
        (downloadLoop env cfg title path url mi stats l gets).result.attempts ∈ l := by
  intro l
  induction l with
  | nil => intro gets; left; rfl
  | cons a rest ih =>
    intro gets
    cases hnet : env.net url a with
    | none =>
      right
      simp only [downloadLoop, hnet]
      exact List.mem_cons_self _ _
    | some msg =>
      by_cases hlt : (a : Int) < cfg.max_retries
      · simp only [downloadLoop, hnet, if_pos hlt]
        rcases ih (gets + 1) with h | h
        · exact Or.inl h
        · exact Or.inr (List.mem_cons_of_mem _ h)
      · simp only [downloadLoop, hnet, if_neg hlt]
        exact Or.inr (List.mem_cons_self _ _)

/-- Branch equation: the skip branch of `download_single_poster`. -/
lemma download_single_eq_skip (env : Env) (api : SearchApi) (cfg : DownloadConfig)
    (stats : DownloadStats) (title : String)
    (hguard : (!cfg.overwrite_existing && env.files.contains (posterPath cfg title)) = true) :
    download_single_poster env api cfg stats title =
      ⟨⟨title, true, some (posterPath cfg title), none, none, 1⟩,
        { stats with skipped := stats.skipped + 1 }, env, 0⟩ := by
  unfold download_single_poster
  rw [hguard]
  rfl

/-- Branch equation: match resolution found nothing. -/
lemma download_single_eq_nomatch (env : Env) (api : SearchApi) (cfg : DownloadConfig)
    (stats : DownloadStats) (title : String)
    (hguard : (!cfg.overwrite_existing && env.files.contains (posterPath cfg title)) = false)
    (hm : find_best_match api cfg title = none) :
    download_single_poster env api cfg stats title =
      ⟨⟨title, false, none, some "No suitable match or poster found on TMDB.", none, 1⟩,
        failStats stats title, env, 0⟩ := by
  unfold download_single_poster
  rw [hguard, hm]
  rfl

/-- Branch equation: the best match has a falsy `poster_path`. -/
lemma download_single_eq_noposter (env : Env) (api : SearchApi) (cfg : DownloadConfig)
    (stats : DownloadStats) (title : String) (mi : MediaInfo)
    (hguard : (!cfg.overwrite_existing && env.files.contains (posterPath cfg title)) = false)
    (hm : find_best_match api cfg title = some mi)
    (hp : pyTruthy mi.poster_path = false) :
    download_single_poster env api cfg stats title =
      ⟨⟨title, false, none, some "No suitable match or poster found on TMDB.", none, 1⟩,
        failStats stats title, env, 0⟩ := by
  unfold download_single_poster
  rw [hguard, hm]
  simp [hp]

/-- A truthy poster path always yields a poster URL. -/
lemma get_poster_url_of_truthy (cfg : DownloadConfig) {p : Option String}
    (h : pyTruthy p = true) :
    get_poster_url cfg p = some (IMG_BASE_URL ++ "/" ++ cfg.quality.value ++ p.getD "") := by
  unfold get_poster_url
  rw [h]
  rfl

/-- Branch equation: a match with a poster enters the retry loop. -/
lemma download_single_eq_loop (env : Env) (api : SearchApi) (cfg : DownloadConfig)
    (stats : DownloadStats) (title : String) (mi : MediaInfo)
    (hguard : (!cfg.overwrite_existing && env.files.contains (posterPath cfg title)) = false)
    (hm : find_best_match api cfg title = some mi)
    (hp : pyTruthy mi.poster_path = true) :
    download_single_poster env api cfg stats title =
      downloadLoop env cfg title (posterPath cfg title)
        (IMG_BASE_URL ++ "/" ++ cfg.quality.value ++ mi.poster_path.getD "") mi stats
        (List.range' 1 cfg.max_retries.toNat) 0 := by
  unfold download_single_poster
  rw [hguard, hm]
  simp [hp, get_poster_url_of_truthy cfg hp]

/-- C3: with a configured `max_retries ≥ 1`, processing one title makes
at most `max_retries` poster HTTP GET attempts, and the `attempts` field
of the returned `DownloadResult` is at most `max_retries`. -/
theorem download_attempts_le (env : Env) (api : SearchApi) (cfg : DownloadConfig)
    (stats : DownloadStats) (title : String) (h : 1 ≤ cfg.max_retries) :
    ((download_single_poster env api cfg stats title).gets : Int) ≤ cfg.max_retries ∧
      ((download_single_poster env api cfg stats title).result.attempts : Int)
        ≤ cfg.max_retries := by
  cases hguard : (!cfg.overwrite_existing && env.files.contains (posterPath cfg title)) with
  | true =>
    rw [download_single_eq_skip env api cfg stats title hguard]
    constructor
    · show ((0 : Nat) : Int) ≤ cfg.max_retries
      omega
    · show ((1 : Nat) : Int) ≤ cfg.max_retries
      omega
  | false =>
    cases hm : find_best_match api cfg title with
    | none =>
      rw [download_single_eq_nomatch env api cfg stats title hguard hm]
      constructor
      · show ((0 : Nat) : Int) ≤ cfg.max_retries
        omega
      · show ((1 : Nat) : Int) ≤ cfg.max_retries
        omega
    | some mi =>
      cases hp : pyTruthy mi.poster_path with
      | false =>
        rw [download_single_eq_noposter env api cfg stats title mi hguard hm hp]
        constructor
        · show ((0 : Nat) : Int) ≤ cfg.max_retries
          omega
        · show ((1 : Nat) : Int) ≤ cfg.max_retries
          omega
      | true =>
        rw [download_single_eq_loop env api cfg stats title mi hguard hm hp]
        have hg := downloadLoop_gets_le env cfg title (posterPath cfg title)
          (IMG_BASE_URL ++ "/" ++ cfg.quality.value ++ mi.poster_path.getD "") mi stats
          (List.range' 1 cfg.max_retries.toNat) 0
        have ha := downloadLoop_attempts_cases env cfg title (posterPath cfg title)
          (IMG_BASE_URL ++ "/" ++ cfg.quality.value ++ mi.poster_path.getD "") mi stats
          (List.range' 1 cfg.max_retries.toNat) 0
        rw [List.length_range'] at hg
        refine ⟨by omega, ?_⟩
        rcases ha with h1 | h2
        · rw [h1]
          omega
        · have h3 := List.mem_range'_1.mp h2
          omega

/-- C3 counterexample: `max_retries` is an unvalidated `int`, and with
`max_retries = 0` a title that resolves to a match with a poster makes
no HTTP GET at all, yet the returned `DownloadResult` carries the
dataclass default `attempts = 1`, which exceeds `max_retries`. -/
theorem download_attempts_exceed :
    ¬(((download_single_poster env0 api1 cfgZ stats0 "Arcane").result.attempts : Int)
        ≤ cfgZ.max_retries) := by
  decide

/-- Witness for C3 with the default configuration (`max_retries = 3`)
and a network on which every GET fails. -/
theorem download_attempts_le_witness :
    1 ≤ cfg0.max_retries ∧
      ((download_single_poster envFail api1 cfg0 stats0 "Arcane").gets : Int)
        ≤ cfg0.max_retries :=
  ⟨by decide, (download_attempts_le envFail api1 cfg0 stats0 "Arcane" (by decide)).1⟩

/-- C5: when match resolution yields no match, or the best match has no
(truthy) `poster_path`, the title fails immediately: no HTTP GET is
attempted, `failed` is incremented, the title is appended to
`failed_titles`, the other counters are untouched and the returned
result is unsuccessful. -/
theorem download_fails_without_poster (env : Env) (api : SearchApi) (cfg : DownloadConfig)
    (stats : DownloadStats) (title : String)
    (hskip : cfg.overwrite_existing = true ∨
      env.files.contains (posterPath cfg title) = false)
    (hmatch : ∀ mi, find_best_match api cfg title = some mi →
      pyTruthy mi.poster_path = false) :
    (download_single_poster env api cfg stats title).gets = 0 ∧
      (download_single_poster env api cfg stats title).result.success = false ∧
      (download_single_poster env api cfg stats title).result.error_message
        = some "No suitable match or poster found on TMDB." ∧
      (download_single_poster env api cfg stats title).stats.failed = stats.failed + 1 ∧
      (download_single_poster env api cfg stats title).stats.failed_titles
        = stats.failed_titles ++ [title] ∧
      (download_single_poster env api cfg stats title).stats.successful = stats.successful ∧
      (download_single_poster env api cfg stats title).stats.skipped = stats.skipped ∧
      (download_single_poster env api cfg stats title).stats.total = stats.total ∧
      (download_single_poster env api cfg stats title).env = env := by
  have hguard := skip_guard_false hskip
  cases hm : find_best_match api cfg title with
  | none =>
    rw [download_single_eq_nomatch env api cfg stats title hguard hm]
    exact ⟨rfl, rfl, rfl, rfl, rfl, rfl, rfl, rfl, rfl⟩
  | some mi =>
    rw [download_single_eq_noposter env api cfg stats title mi hguard hm (hmatch mi hm)]
    exact ⟨rfl, rfl, rfl, rfl, rfl, rfl, rfl, rfl, rfl⟩

/-- Witness for C5: an API that never returns results. -/
theorem download_fails_without_poster_witness :
    (download_single_poster env0 emptyApi cfg0 stats0 "Nothing").gets = 0 ∧
      (download_single_poster env0 emptyApi cfg0 stats0 "Nothing").result.success = false := by
  have h := download_fails_without_poster env0 emptyApi cfg0 stats0 "Nothing"
    (Or.inr (by decide))
    (fun mi hmi => by
      rw [(by decide : find_best_match emptyApi cfg0 "Nothing" = none)] at hmi
      cases hmi)
  exact ⟨h.1, h.2.1⟩

/-- When every attempt of the retry loop fails, the loop records the
failure at attempt `max_retries` and made one GET per attempt. -/
lemma downloadLoop_all_fail (env : Env) (cfg : DownloadConfig) (title path url : String)
    (mi : MediaInfo) (stats : DownloadStats) :
    ∀ (m s gets : Nat), s + m = cfg.max_retries.toNat + 1 → 1 ≤ s → 1 ≤ m →
      (∀ n, s ≤ n → n ≤ cfg.max_retries.toNat → (env.net url n).isSome = true) →
      (downloadLoop env cfg title path url mi stats (List.range' s m) gets).result.success
          = false ∧
        (downloadLoop env cfg title path url mi stats (List.range' s m) gets).result.attempts
          = cfg.max_retries.toNat ∧
        (downloadLoop env cfg title path url mi stats (List.range' s m) gets).stats
          = failStats stats title ∧
        (downloadLoop env cfg title path url mi stats (List.range' s m) gets).gets
          = gets + m ∧
        (downloadLoop env cfg title path url mi stats (List.range' s m) gets).env = env := by
  intro m
  induction m with
  | zero => intro s gets h1 h2 h3 h4; omega
  | succ m' ih =>
    intro s gets h1 h2 h3 hfail
    have hr : List.range' s (m' + 1) = s :: List.range' (s + 1) m' := rfl
    rw [hr]
    have hnet : (env.net url s).isSome = true := hfail s (le_refl s) (by omega)
    cases hnetv : env.net url s with
    | none => rw [hnetv] at hnet; cases hnet
    | some msg =>
      by_cases hm' : m' = 0
      · subst hm'
        have hlt : ¬((s : Int) < cfg.max_retries) := by omega
        have hev : downloadLoop env cfg title path url mi stats
            (s :: List.range' (s + 1) 0) gets
              = ⟨⟨title, false, none, some msg, none, s⟩, failStats stats title, env,
                  gets + 1⟩ := by
          simp only [downloadLoop, hnetv, if_neg hlt]
        rw [hev]
        refine ⟨rfl, ?_, rfl, rfl, rfl⟩
        show s = cfg.max_retries.toNat
        omega
      · have hm1 : 1 ≤ m' := Nat.one_le_iff_ne_zero.mpr hm'
        have hlt : (s : Int) < cfg.max_retries := by omega
        simp only [downloadLoop, hnetv, if_pos hlt]
        have hrec := ih (s + 1) (gets + 1) (by omega) (by omega) hm1
          (fun n hn1 hn2 => hfail n (by omega) hn2)
        refine ⟨hrec.1, hrec.2.1, hrec.2.2.1, ?_, hrec.2.2.2.2⟩
        rw [hrec.2.2.2.1]
        omega

/-- C6: if every one of the `max_retries ≥ 1` HTTP download attempts
fails with a network error, the title is recorded as failed: `failed` is
incremented, the title is appended to `failed_titles`, and the result is
unsuccessful with `attempts = max_retries` after exactly `max_retries`
GETs. -/
theorem download_all_retries_fail (env : Env) (api : SearchApi) (cfg : DownloadConfig)
    (stats : DownloadStats) (title : String) (mi : MediaInfo)
    (hskip : cfg.overwrite_existing = true ∨
      env.files.contains (posterPath cfg title) = false)
    (hm : find_best_match api cfg title = some mi)
    (hp : pyTruthy mi.poster_path = true)
    (hr : 1 ≤ cfg.max_retries)
    (hfail : ∀ n : Nat, 1 ≤ n → (n : Int) ≤ cfg.max_retries →
      (env.net (IMG_BASE_URL ++ "/" ++ cfg.quality.value ++ mi.poster_path.getD "") n).isSome
        = true) :
    (download_single_poster env api cfg stats title).result.success = false ∧
      ((download_single_poster env api cfg stats title).result.attempts : Int)
        = cfg.max_retries ∧
      (download_single_poster env api cfg stats title).stats = failStats stats title ∧
      ((download_single_poster env api cfg stats title).gets : Int) = cfg.max_retries := by
  rw [download_single_eq_loop env api cfg stats title mi (skip_guard_false hskip) hm hp]
  have hloop := downloadLoop_all_fail env cfg title (posterPath cfg title)
    (IMG_BASE_URL ++ "/" ++ cfg.quality.value ++ mi.poster_path.getD "") mi stats
    cfg.max_retries.toNat 1 0 (by omega) (le_refl 1) (by omega)
    (fun n hn1 hn2 => hfail n hn1 (by omega))
  refine ⟨hloop.1, ?_, hloop.2.2.1, ?_⟩
  · rw [hloop.2.1]
    omega
  · rw [hloop.2.2.2.1]
    omega

/-- Witness for C6: the default configuration, an API with a match, and
a network on which every GET fails. -/
theorem download_all_retries_fail_witness :
    (download_single_poster envFail api1 cfg0 stats0 "Arcane").result.success = false ∧
      ((download_single_poster envFail api1 cfg0 stats0 "Arcane").result.attempts : Int)
        = cfg0.max_retries :=
  have h := download_all_retries_fail envFail api1 cfg0 stats0 "Arcane" mi3
    (Or.inr (by decide)) (by decide) (by decide) (by decide)
    (fun n _ _ => rfl)
  ⟨h.1, h.2.1⟩

/-- C10: with `max_retries < 1` the retry loop body never runs: a title
that is not skipped and resolves to a match with a poster makes no HTTP
GET and falls through to the post-loop return, whose `DownloadResult`
carries `success = False`, the message `"Download failed after all
retries."` and the dataclass default `attempts = 1`, while the
statistics (including `failed` and `failed_titles`) are untouched. -/
theorem download_zero_retries (env : Env) (api : SearchApi) (cfg : DownloadConfig)
    (stats : DownloadStats) (title : String) (mi : MediaInfo)
    (hskip : cfg.overwrite_existing = true ∨
      env.files.contains (posterPath cfg title) = false)
    (hm : find_best_match api cfg title = some mi)
    (hp : pyTruthy mi.poster_path = true)
    (hr : cfg.max_retries < 1) :
    download_single_poster env api cfg stats title =
      ⟨⟨title, false, none, some "Download failed after all retries.", none, 1⟩,
        stats, env, 0⟩ := by
  rw [download_single_eq_loop env api cfg stats title mi (skip_guard_false hskip) hm hp]
  have h0 : cfg.max_retries.toNat = 0 := by omega
  rw [h0]
  rfl

/-- Witness for C10: the zero-retries configuration `cfgZ`. -/
theorem download_zero_retries_witness :
    download_single_poster env0 api1 cfgZ stats0 "Arcane" =
      ⟨⟨"Arcane", false, none, some "Download failed after all retries.", none, 1⟩,
        stats0, env0, 0⟩ :=
  download_zero_retries env0 api1 cfgZ stats0 "Arcane" mi3
    (Or.inr (by decide)) (by decide) (by decide) (by decide)

/-- With at least one attempt, the retry loop either records a success
or records a failure — never anything else. -/
lemma downloadLoop_stats_cases (env : Env) (cfg : DownloadConfig) (title path url : String)
    (mi : MediaInfo) (stats : DownloadStats) :
    ∀ (m s gets : Nat), s + m = cfg.max_retries.toNat + 1 → 1 ≤ s → 1 ≤ m →
      (downloadLoop env cfg title path url mi stats (List.range' s m) gets).stats
          = { stats with successful := stats.successful + 1 } ∨
        (downloadLoop env cfg title path url mi stats (List.range' s m) gets).stats
          = failStats stats title := by
  intro m
  induction m with
  | zero => intro s gets h1 h2 h3; omega
  | succ m' ih =>
    intro s gets h1 h2 h3
    have hr : List.range' s (m' + 1) = s :: List.range' (s + 1) m' := rfl
    rw [hr]
    cases hnetv : env.net url s with
    | none =>
      left
      simp only [downloadLoop, hnetv]
    | some msg =>
      by_cases hm' : m' = 0
      · subst hm'
        have hlt : ¬((s : Int) < cfg.max_retries) := by omega
        right
        simp only [downloadLoop, hnetv, if_neg hlt]
      · have hlt : (s : Int) < cfg.max_retries := by omega
        simp only [downloadLoop, hnetv, if_pos hlt]
        exact ih (s + 1) (gets + 1) (by omega) (by omega) (by omega)

/-- Each processed title bumps exactly one of the three counters
(`skipped`, `successful`, `failed`). -/
lemma download_single_stats_cases (env : Env) (api : SearchApi) (cfg : DownloadConfig)
    (stats : DownloadStats) (title : String) (h : 1 ≤ cfg.max_retries) :
    (download_single_poster env api cfg stats title).stats
        = { stats with skipped := stats.skipped + 1 } ∨
      (download_single_poster env api cfg stats title).stats
          = { stats with successful := stats.successful + 1 } ∨
      (download_single_poster env api cfg stats title).stats = failStats stats title := by
  cases hguard : (!cfg.overwrite_existing && env.files.contains (posterPath cfg title)) with
  | true =>
    left
    rw [download_single_eq_skip env api cfg stats title hguard]
  | false =>
    cases hm : find_best_match api cfg title with
    | none =>
      right; right
      rw [download_single_eq_nomatch env api cfg stats title hguard hm]
    | some mi =>
      cases hp : pyTruthy mi.poster_path with
      | false =>
        right; right
        rw [download_single_eq_noposter env api cfg stats title mi hguard hm hp]
      | true =>
        rw [download_single_eq_loop env api cfg stats title mi hguard hm hp]
        rcases downloadLoop_stats_cases env cfg title (posterPath cfg title)
          (IMG_BASE_URL ++ "/" ++ cfg.quality.value ++ mi.poster_path.getD "") mi stats
          cfg.max_retries.toNat 1 0 (by omega) (le_refl 1) (by omega) with h1 | h1
        · exact Or.inr (Or.inl h1)
        · exact Or.inr (Or.inr h1)

/-- Invariant of the per-title fold: `total` is preserved, the three
counters together grow by the number of processed titles, and `failed`
grows in lockstep with the length of `failed_titles`. -/
lemma runTitles_stats (api : SearchApi) (cfg : DownloadConfig) (h : 1 ≤ cfg.max_retries) :
    ∀ (titles : List String) (env : Env) (stats : DownloadStats),
      (runTitles api cfg env stats titles).1.total = stats.total ∧
        (runTitles api cfg env stats titles).1.successful
            + (runTitles api cfg env stats titles).1.failed
            + (runTitles api cfg env stats titles).1.skipped
          = stats.successful + stats.failed + stats.skipped + titles.length ∧
        (runTitles api cfg env stats titles).1.failed + stats.failed_titles.length
          = stats.failed + (runTitles api cfg env stats titles).1.failed_titles.length := by
  intro titles
  induction titles with
  | nil =>
    intro env stats
    refine ⟨rfl, ?_, ?_⟩
    · show stats.successful + stats.failed + stats.skipped
        = stats.successful + stats.failed + stats.skipped + ([] : List String).length
      simp
    · show stats.failed + stats.failed_titles.length
        = stats.failed + stats.failed_titles.length
      rfl
  | cons t ts ih =>
    intro env stats
    simp only [runTitles]
    have ihs := ih (download_single_poster env api cfg stats t).env
      (download_single_poster env api cfg stats t).stats
    rcases download_single_stats_cases env api cfg stats t h with h1 | h1 | h1 <;>
      rw [h1] at ihs ⊢ <;>
      simp only [failStats, List.length_append, List.length_cons, List.length_nil] at ihs ⊢ <;>
      exact ⟨ihs.1, by omega, by omega⟩

/-- C9: `download_from_list` returns statistics with `total` equal to
the number of titles, `successful + failed + skipped = total`, and
`failed` equal to the length of `failed_titles` (given a configured
`max_retries ≥ 1`). -/
theorem download_from_list_stats (env : Env) (api : SearchApi) (cfg : DownloadConfig)
    (titles : List String) (h : 1 ≤ cfg.max_retries) :
    (download_from_list env api cfg titles).1.total = titles.length ∧
      (download_from_list env api cfg titles).1.successful
          + (download_from_list env api cfg titles).1.failed
          + (download_from_list env api cfg titles).1.skipped
        = (download_from_list env api cfg titles).1.total ∧
      (download_from_list env api cfg titles).1.failed
        = (download_from_list env api cfg titles).1.failed_titles.length := by
  have hrun := runTitles_stats api cfg h titles env ⟨titles.length, 0, 0, 0, []⟩
  simp only [List.length_nil] at hrun
  unfold download_from_list
  exact ⟨hrun.1, by omega, by omega⟩

/-- Witness for C9 on a two-title batch with the default
configuration. -/
theorem download_from_list_stats_witness :
    1 ≤ cfg0.max_retries ∧
      (download_from_list env0 api1 cfg0 ["A", "B"]).1.total = 2 :=
  ⟨by decide, (download_from_list_stats env0 api1 cfg0 ["A", "B"] (by decide)).1⟩

/-! ## Match resolution -/

lemma firstTypeHit_none (api : SearchApi) (title lang : String) :
    ∀ mts : List MediaType, (∀ mt ∈ mts, search_media api title mt lang = []) →
      firstTypeHit api title lang mts = none := by
  intro mts
  induction mts with
  | nil => intro h; rfl
  | cons mt rest ih =>
    intro h
    simp only [firstTypeHit, h mt (List.mem_cons_self _ _)]
    exact ih fun mt' hmt' => h mt' (List.mem_cons_of_mem _ hmt')

lemma firstBackupHit_none (api : SearchApi) (cfg : DownloadConfig) (title : String) :
    ∀ langs : List String,
      (∀ lang ∈ langs, ∀ mt ∈ cfg.media_types, search_media api title mt lang = []) →
      firstBackupHit api cfg title langs = none := by
  intro langs
  induction langs with
  | nil => intro h; rfl
  | cons lang rest ih =>
    intro h
    simp only [firstBackupHit,
      firstTypeHit_none api title lang cfg.media_types (h lang (List.mem_cons_self _ _))]
    exact ih fun lang' hl => h lang' (List.mem_cons_of_mem _ hl)

/-- C2 (amended): when no search — over the primary language and every
backup language, across every configured media type — returns any
result, `_find_best_match` returns `None` and `download_single_poster`
returns an ordinary failed `DownloadResult` with the message
`"No suitable match or poster found on TMDB."`, incrementing `failed`
and appending the title to `failed_titles`.  No exception is raised (no
`NotFoundError` exists in the code). -/
theorem no_match_no_exception (env : Env) (api : SearchApi) (cfg : DownloadConfig)
    (stats : DownloadStats) (title : String)
    (hskip : cfg.overwrite_existing = true ∨
      env.files.contains (posterPath cfg title) = false)
    (hprim : ∀ mt ∈ cfg.media_types, search_media api title mt cfg.language = [])
    (hback : ∀ lang ∈ cfg.backup_languages, ∀ mt ∈ cfg.media_types,
      search_media api title mt lang = []) :
    find_best_match api cfg title = none ∧
      download_single_poster env api cfg stats title =
        ⟨⟨title, false, none, some "No suitable match or poster found on TMDB.", none, 1⟩,
          failStats stats title, env, 0⟩ := by
  have hfm : find_best_match api cfg title = none := by
    unfold find_best_match
    rw [firstTypeHit_none api title cfg.language cfg.media_types hprim]
    exact firstBackupHit_none api cfg title cfg.backup_languages hback
  exact ⟨hfm, download_single_eq_nomatch env api cfg stats title (skip_guard_false hskip) hfm⟩

/-- C2 counterexample to the claim as stated: with an API returning no
results anywhere, match resolution returns `None` and
`download_single_poster` returns normally with a failed
`DownloadResult` carrying an error message — it does not fail with a
`NotFoundError`, which exists nowhere in the code. -/
theorem no_match_returns_result :
    find_best_match emptyApi cfg0 "Unknown" = none ∧
      (download_single_poster env0 emptyApi cfg0 stats0 "Unknown").result
        = ⟨"Unknown", false, none, some "No suitable match or poster found on TMDB.",
            none, 1⟩ :=
  ⟨by decide, by decide⟩

/-- Witness for C2 (amended) at a concrete empty API. -/
theorem no_match_no_exception_witness :
    find_best_match emptyApi cfg0 "Unknown2" = none ∧
      download_single_poster env0 emptyApi cfg0 stats0 "Unknown2" =
        ⟨⟨"Unknown2", false, none, some "No suitable match or poster found on TMDB.",
            none, 1⟩, failStats stats0 "Unknown2", env0, 0⟩ :=
  no_match_no_exception env0 emptyApi cfg0 stats0 "Unknown2" (Or.inr (by decide))
    (by decide) (by decide)

/-- The relation "has at least the popularity of" used for the
descending sort. -/
def popGe (a b : MediaInfo) : Prop := b.popularity ≤ a.popularity

lemma mem_insertByPop {y x : MediaInfo} :
    ∀ {l : List MediaInfo}, y ∈ insertByPop x l ↔ y = x ∨ y ∈ l := by
  intro l
  induction l with
  | nil => simp [insertByPop]
  | cons z zs ih =>
    by_cases hc : x.popularity < z.popularity
    · rw [insertByPop, if_pos hc]
      simp only [List.mem_cons, ih]
      tauto
    · rw [insertByPop, if_neg hc]
      simp only [List.mem_cons]

lemma pairwise_insertByPop {x : MediaInfo} :
    ∀ {l : List MediaInfo}, List.Pairwise popGe l →
      List.Pairwise popGe (insertByPop x l) := by
  intro l
  induction l with
  | nil => intro _; simp [insertByPop]
  | cons z zs ih =>
    intro h
    rw [List.pairwise_cons] at h
    by_cases hc : x.popularity < z.popularity
    · rw [insertByPop, if_pos hc, List.pairwise_cons]
      constructor
      · intro a ha
        rcases mem_insertByPop.mp ha with rfl | ha'
        · exact le_of_lt hc
        · exact h.1 a ha'
      · exact ih h.2
    · rw [insertByPop, if_neg hc, List.pairwise_cons]
      constructor
      · intro a ha
        rcases List.mem_cons.mp ha with rfl | ha'
        · exact not_lt.mp hc
        · exact le_trans (h.1 a ha') (not_lt.mp hc)
      · rw [List.pairwise_cons]
        exact ⟨h.1, h.2⟩

lemma pairwise_sortByPopDesc : ∀ l : List MediaInfo,
    List.Pairwise popGe (sortByPopDesc l) := by
  intro l
  induction l with
  | nil => exact List.Pairwise.nil
  | cons x xs ih => exact pairwise_insertByPop ih

/-- Every result list of `search_media` is sorted by popularity in
descending order. -/
lemma pairwise_search_media (api : SearchApi) (title : String) (mt : MediaType)
    (lang : String) : List.Pairwise popGe (search_media api title mt lang) := by
  unfold search_media
  cases api title mt lang with
  | none => exact List.Pairwise.nil
  | some items =>
    show List.Pairwise popGe
      (if items.isEmpty = true then []
        else sortByPopDesc (items.filterMap (parseItem mt lang)))
    by_cases hi : items.isEmpty = true
    · rw [if_pos hi]
      exact List.Pairwise.nil
    · rw [if_neg hi]
      exact pairwise_sortByPopDesc _

/-- The head of a descending-sorted list bounds the popularity of every
element. -/
lemma head_max_of_pairwise {l : List MediaInfo} {m : MediaInfo}
    (hp : List.Pairwise popGe l) (hh : l.head? = some m) :
    ∀ x ∈ l, x.popularity ≤ m.popularity := by
  cases l with
  | nil => cases hh
  | cons a rest =>
    rw [List.head?_cons] at hh
    cases Option.some.inj hh
    intro x hx
    rcases List.mem_cons.mp hx with rfl | hx'
    · exact le_refl _
    · exact (List.pairwise_cons.mp hp).1 x hx'

lemma firstHit_append : ∀ xs ys : List (List MediaInfo),
    firstHit (xs ++ ys) =
      match firstHit xs with
      | some r => some r
      | none => firstHit ys := by
  intro xs ys
  induction xs with
  | nil => rfl
  | cons a rest ih =>
    cases a with
    | nil =>
      simp only [List.cons_append, firstHit]
      exact ih
    | cons r rs => simp only [List.cons_append, firstHit]

lemma firstTypeHit_eq (api : SearchApi) (title lang : String) :
    ∀ mts : List MediaType,
      firstTypeHit api title lang mts
        = firstHit (mts.map fun mt => search_media api title mt lang) := by
  intro mts
  induction mts with
  | nil => rfl
  | cons mt rest ih =>
    cases hs : search_media api title mt lang with
    | nil =>
      simp only [List.map_cons, firstTypeHit, hs, firstHit]
      exact ih
    | cons r rs => simp only [List.map_cons, firstTypeHit, hs, firstHit]

lemma firstBackupHit_eq (api : SearchApi) (cfg : DownloadConfig) (title : String) :
    ∀ langs : List String,
      firstBackupHit api cfg title langs
        = firstHit (langs.flatMap fun l =>
            cfg.media_types.map fun mt => search_media api title mt l) := by
  intro langs
  induction langs with
  | nil => rfl
  | cons lang rest ih =>
    rw [List.flatMap_cons, firstHit_append]
    simp only [firstBackupHit]
    rw [firstTypeHit_eq api title lang cfg.media_types]
    cases firstHit (cfg.media_types.map fun mt => search_media api title mt lang) with
    | none => exact ih
    | some r => rfl

/-- `_find_best_match` equals the spec-side description: take the first
non-empty result list along the spec's search order and return its
head. -/
lemma find_best_match_eq_firstHit (api : SearchApi) (cfg : DownloadConfig)
    (title : String) :
    find_best_match api cfg title
      = firstHit ((specSearchOrder cfg).map fun p => search_media api title p.2 p.1) := by
  unfold find_best_match specSearchOrder
  rw [List.map_append, firstHit_append, List.map_flatMap]
  simp only [List.map_map, Function.comp_def]
  rw [← firstTypeHit_eq api title cfg.language cfg.media_types]
  rw [← firstBackupHit_eq api cfg title cfg.backup_languages]

/-- C1: match resolution searches the primary language across the
configured media types in order, then each backup language crossed with
each media type in the same order, and returns the head of the first
non-empty result list; every result list is sorted by popularity in
descending order, so the returned entry is the highest-popularity match
of its list. -/
theorem find_best_match_spec (api : SearchApi) (cfg : DownloadConfig) (title : String) :
    find_best_match api cfg title
        = firstHit ((specSearchOrder cfg).map fun p => search_media api title p.2 p.1) ∧
      (∀ (mt : MediaType) (lang : String),
        List.Pairwise popGe (search_media api title mt lang)) ∧
      ∀ (mt : MediaType) (lang : String) (m : MediaInfo),
        (search_media api title mt lang).head? = some m →
        ∀ x ∈ search_media api title mt lang, x.popularity ≤ m.popularity :=
  ⟨find_best_match_eq_firstHit api cfg title,
    fun mt lang => pairwise_search_media api title mt lang,
    fun mt lang m hm x hx =>
      head_max_of_pairwise (pairwise_search_media api title mt lang) hm x hx⟩

/-- Witness for C1: with `api1`, the TV search in `en-US` has head
`mi3`, whose popularity 9 bounds the whole list. -/
theorem find_best_match_spec_witness :
    find_best_match api1 cfg0 "Arcane"
        = firstHit ((specSearchOrder cfg0).map fun p => search_media api1 "Arcane" p.2 p.1) ∧
      find_best_match api1 cfg0 "Arcane" = some mi3 ∧
      ∀ x ∈ search_media api1 "Arcane" MediaType.tv "en-US",
        x.popularity ≤ mi3.popularity :=
  ⟨(find_best_match_spec api1 cfg0 "Arcane").1, by decide,
    (find_best_match_spec api1 cfg0 "Arcane").2.2 MediaType.tv "en-US" mi3 (by decide)⟩

end CoverPics
